import Mathlib

/-!
Shallow embedding of the `logx` package (file `logx.go`).

The package wires an XML-driven configuration into a registry of named
logrus logger handles, synthesizes default `stderr` / `stdout` channels
backed by hourly-rotating file writers, and installs severity-routing
hooks.  The embedding models:

* the pure helpers `strToNumSuffix` and `xmlToFileLogWriter` directly
  from the source;
* the Go standard-library helpers they use (`strconv.Atoi`,
  `strconv.ParseUint`, `strings.Trim`, `path.Join` / `path.Clean`) with
  their documented semantics, including 64-bit wrap-around and the
  clamped values those parsers return when their error is discarded;
* the external collaborators `logrus`, `lfshook` and `rotatelogs` as
  explicit data: a logger is a record of output writer, threshold level,
  formatter and hook list; `logrus.AddHook` appends to the hook list of
  the package-level standard logger; an `lfshook` hook carries a
  level-to-writer map and fires on the levels of that map;
  `rotatelogs.New` is modelled as the constructor of a `Writer.rotate`
  value recording the pattern, link name, rotation interval and the
  optionally supplied rotation count / rotation size (in the Go library
  it can only fail on an invalid strftime pattern, a case the claims do
  not exercise, so construction is modelled as total);
* the file-system outcome of `os.Open` / `ioutil.ReadAll` /
  `xml.Unmarshal` on the configuration file as an explicit input
  (`ReadOutcome`), since file contents are external to the program.

Mutable package state (the `loggers` map and the standard logger with
its hook list) is threaded explicitly as `LogxState`; `InitLogger`'s
`panic` on an unparseable level is modelled as the `InitResult.panicked`
constructor.
-/

namespace Logx

/-- Severity levels of logrus, ordered as in the library
(Panic = 0 … Trace = 6). -/
inductive Level where
  | panic
  | fatal
  | error
  | warn
  | info
  | debug
  | trace
deriving DecidableEq

/-- Numeric value of a level, as in logrus. -/
def Level.toNat : Level → Nat
  | .panic => 0
  | .fatal => 1
  | .error => 2
  | .warn => 3
  | .info => 4
  | .debug => 5
  | .trace => 6

/-- ASCII lowercasing of one character (the level strings compared
against are all ASCII; models `strings.ToLower` on them). -/
def asciiToLower (c : Char) : Char :=
  if 65 ≤ c.toNat ∧ c.toNat ≤ 90 then Char.ofNat (c.toNat + 32) else c

/-- Models `logrus.ParseLevel`: lowercase the string and match it
against the known level names ("warning" is an alias of "warn");
an unknown name is a parse failure. -/
def parseLevel (s : String) : Option Level :=
  let l := s.data.map asciiToLower
  if l = "panic".data then some .panic
  else if l = "fatal".data then some .fatal
  else if l = "error".data then some .error
  else if l = "warn".data ∨ l = "warning".data then some .warn
  else if l = "info".data then some .info
  else if l = "debug".data then some .debug
  else if l = "trace".data then some .trace
  else none

/-- An `io.Writer` value as observable by this package: the process
standard streams, or a rotating file writer as built by
`rotatelogs.New` (pattern, link name, rotation interval in seconds, and
the rotation count / rotation size options when they were supplied). -/
inductive Writer where
  | osStdout
  | osStderr
  | rotate (pattern : String) (linkName : String) (rotationSecs : Nat)
      (rotationCount : Option Nat) (rotationSize : Option Int)
deriving DecidableEq

/-- The two formatter values that occur: the default logrus text
formatter of a fresh logger, and the shared `txtFormatter`
(an `x-cray` formatter configured in `init`). -/
inductive Formatter where
  | logrusText
  | txtFormatter
deriving DecidableEq

/-- An `lfshook` hook: a level-to-writer map plus a formatter.  The hook
fires exactly on the levels present in its map and writes the record to
the mapped writer. -/
structure Hook where
  writerMap : List (Level × Writer)
  formatter : Formatter
deriving DecidableEq

/-- A `logrus.Logger` as observable here: output writer, threshold
level, formatter, and the logger's own hook list. -/
structure Logger where
  out : Writer
  level : Level
  formatter : Formatter
  hooks : List Hook
deriving DecidableEq

/-- Models `logrus.New()`: output `os.Stderr`, threshold `Info`, the
default logrus text formatter, no hooks. -/
def logrusNew : Logger :=
  { out := .osStderr, level := .info, formatter := .logrusText, hooks := [] }

/-- The package-wide mutable state: the `loggers` map (an
insertion-ordered association list with Go-map overwrite semantics) and
the logrus standard logger (the target of package-level
`logrus.AddHook`). -/
structure LogxState where
  loggers : List (String × Logger)
  stdLogger : Logger
deriving DecidableEq

/-- Go map read: first (hence unique) binding of the key. -/
def mapLookup (m : List (String × Logger)) (k : String) : Option Logger :=
  match m with
  | [] => none
  | (k', v) :: rest => if k' = k then some v else mapLookup rest k

/-- Go map write: overwrite the binding of `k` if present, else append. -/
def mapInsert (m : List (String × Logger)) (k : String) (v : Logger) :
    List (String × Logger) :=
  match m with
  | [] => [(k, v)]
  | (k', v') :: rest =>
    if k' = k then (k, v) :: rest else (k', v') :: mapInsert rest k v

/-- The hook `lfshook.NewHook(WriterMap{Error/Panic/Fatal ↦ w}, txtFormatter)`. -/
def errHook (w : Writer) : Hook :=
  { writerMap := [(.error, w), (.panic, w), (.fatal, w)],
    formatter := .txtFormatter }

/-- The hook `lfshook.NewHook(WriterMap{Debug/Info/Warn ↦ w}, txtFormatter)`. -/
def outHook (w : Writer) : Hook :=
  { writerMap := [(.debug, w), (.info, w), (.warn, w)],
    formatter := .txtFormatter }

/-- `logrus.AddHook`: appends a hook to the standard logger's hook
list; per-channel loggers are untouched. -/
def addHook (st : LogxState) (h : Hook) : LogxState :=
  { st with stdLogger :=
      { st.stdLogger with hooks := st.stdLogger.hooks ++ [h] } }

/-- State after the package's `init` function: the `loggers` map is
empty and the standard logger carries the two hooks added there, both
mapping their levels to the standard logger's output (`os.Stderr`). -/
def packageInitState : LogxState :=
  { loggers := [],
    stdLogger :=
      { logrusNew with
        hooks := [errHook logrusNew.out, outHook logrusNew.out] } }

/-- Writer an `lfshook` writer map yields for a level, if any. -/
def writerFor : List (Level × Writer) → Level → Option Writer
  | [], _ => none
  | (l, w) :: rest, lvl => if l = lvl then some w else writerFor rest lvl

/-- The writers a record emitted at `lvl` through logger `l` reaches:
nothing if the level is above the logger's threshold; otherwise the
writers of the logger's own hooks that fire at this level, followed by
the logger's own output. -/
def Logger.emitWriters (l : Logger) (lvl : Level) : List Writer :=
  if lvl.toNat ≤ l.level.toNat then
    l.hooks.filterMap (fun h => writerFor h.writerMap lvl) ++ [l.out]
  else []

/-! Go standard-library helpers used by the source. -/

/-- Largest value of Go's 64-bit `int`. -/
def int64Max : Int := 2 ^ 63 - 1

/-- Smallest value of Go's 64-bit `int`. -/
def int64Min : Int := -(2 ^ 63)

/-- Two's-complement wrap of an integer into the 64-bit `int` range
(the result of a Go `int` multiplication). -/
def wrap64 (x : Int) : Int :=
  (x + 2 ^ 63) % 2 ^ 64 - 2 ^ 63

/-- Value of a decimal digit string. -/
def digitsVal (cs : List Char) : Nat :=
  cs.foldl (fun a c => a * 10 + (c.toNat - 48)) 0

/-- Models `strconv.Atoi` with its error discarded, as the source does:
an optional sign followed by at least one digit parses to its value
(clamped to the 64-bit `int` range on overflow, as `ParseInt` returns
the clamped value together with `ErrRange`); any other string yields
the zero value returned alongside `ErrSyntax`. -/
def goAtoi (s : String) : Int :=
  let cs := s.data
  let ds := if cs.head? = some '-' ∨ cs.head? = some '+' then cs.tail else cs
  if ds.isEmpty || !ds.all Char.isDigit then 0
  else
    let v : Int := (digitsVal ds : Int)
    let v : Int := if cs.head? = some '-' then -v else v
    if v > int64Max then int64Max
    else if v < int64Min then int64Min
    else v

/-- Models `strconv.ParseUint(s, 10, 32)` with its error discarded: a
nonempty all-digit string parses to its value clamped to the 32-bit
range (`ErrRange` returns the clamped maximum); anything else yields 0. -/
def goParseUint32 (s : String) : Nat :=
  if !s.data.isEmpty && s.data.all Char.isDigit then
    min (digitsVal s.data) (2 ^ 32 - 1)
  else 0

/-- Models `strings.Trim(s, " \r\n")`: strip those characters from both
ends. -/
def goTrim (s : String) : String :=
  let cut := fun c => c = ' ' ∨ c = '\r' ∨ c = '\n'
  ⟨((s.data.dropWhile cut).reverse.dropWhile cut).reverse⟩

/-- The multiplier accumulated by the fallthrough `switch` of
`strToNumSuffix` for a final suffix character, if it is one of the
recognized suffixes: starting from `num = 1`, each traversed case
performs one wrapping `num *= mult`. -/
def suffixFactor (c : Char) (mult : Int) : Option Int :=
  if c = 'G' ∨ c = 'g' then
    some (wrap64 (wrap64 (wrap64 (1 * mult) * mult) * mult))
  else if c = 'M' ∨ c = 'm' then
    some (wrap64 (wrap64 (1 * mult) * mult))
  else if c = 'K' ∨ c = 'k' then
    some (wrap64 (1 * mult))
  else none

/-- `strToNumSuffix` from the source: when the string has length
greater than one and ends in a recognized suffix letter, the suffix is
stripped and the multiplier accumulated by the fallthrough cases;
the remaining string goes through `strconv.Atoi` with the error
discarded, and the product is a wrapping `int` multiplication. -/
def strToNumSuffix (str : String) (mult : Int) : Int :=
  let cs := str.data
  let p : Int × List Char :=
    if 1 < cs.length then
      match cs.getLast? with
      | some c =>
        match suffixFactor c mult with
        | some f => (f, cs.dropLast)
        | none => (1, cs)
      | none => (1, cs)
    else (1, cs)
  wrap64 (goAtoi (String.mk p.2) * p.1)

/-! Go `path.Join` / `path.Clean`. -/

/-- Split a character list on `'/'`. -/
def splitSlash : List Char → List (List Char)
  | [] => [[]]
  | c :: rest =>
    let r := splitSlash rest
    if c = '/' then [] :: r
    else
      match r with
      | [] => [[c]]
      | h :: t => (c :: h) :: t

/-- Stack pass of `path.Clean`: drop empty and `"."` elements, resolve
`".."` against the stack (for a rooted path a leading `".."` is
dropped; for a relative path it is kept).  The accumulator holds the
processed elements in reverse. -/
def cleanParts (rooted : Bool) : List (List Char) → List (List Char) →
    List (List Char)
  | [], acc => acc.reverse
  | p :: ps, acc =>
    if p = [] ∨ p = ['.'] then cleanParts rooted ps acc
    else if p = ['.', '.'] then
      match acc with
      | a :: rest =>
        if a = ['.', '.'] then cleanParts rooted ps (p :: a :: rest)
        else cleanParts rooted ps rest
      | [] =>
        if rooted then cleanParts rooted ps []
        else cleanParts rooted ps [p]
    else cleanParts rooted ps (p :: acc)

/-- Interleave `'/'` between path elements. -/
def joinSlash : List (List Char) → List Char
  | [] => []
  | [p] => p
  | p :: ps => p ++ '/' :: joinSlash ps

/-- Models Go `path.Clean`. -/
def pathClean (p : String) : String :=
  if p = "" then "."
  else
    let rooted := p.data.head? = some '/'
    let parts := cleanParts (decide rooted) (splitSlash p.data) []
    let s := joinSlash parts
    if s = [] then (if rooted then "/" else ".")
    else if rooted then ⟨'/' :: s⟩ else ⟨s⟩

/-- Models Go `path.Join` on two elements: empty elements contribute
nothing, the rest are joined with `'/'` and the result cleaned; the
join of two empty strings is empty. -/
def pathJoin (a b : String) : String :=
  if a = "" ∧ b = "" then ""
  else if a = "" then pathClean b
  else pathClean (a ++ "/" ++ b)

/-! Configuration records and the sink factory. -/

/-- One `<property>` element: name attribute and character data. -/
structure xmlProperty where
  name : String
  value : String
deriving DecidableEq

/-- One `<filter>` element of the configuration. -/
structure xmlFilter where
  enabled : String
  tag : String
  level : String
  type : String
  property : List xmlProperty
deriving DecidableEq

/-- Body of the property loop of `xmlToFileLogWriter`, acting on the
pair `(maxbackups, maxsize)`: a `maxbackups` property replaces the
count with whatever `strconv.ParseUint` returns once its error is
discarded; a `maxsize` property replaces the size via `strToNumSuffix`;
any other property name is ignored. -/
def applyProp (acc : Nat × Int) (prop : xmlProperty) : Nat × Int :=
  if prop.name = "maxbackups" then
    (goParseUint32 (goTrim prop.value), acc.2)
  else if prop.name = "maxsize" then
    (acc.1, strToNumSuffix (goTrim prop.value) 1024)
  else acc

/-- `xmlToFileLogWriter` from the source: defaults `maxbackups = 10`
and `maxsize = strToNumSuffix("100M", 1024)`, overridden in property
order by `applyProp`, then the rotating writer is built with the hourly
pattern, the link at `filename`, rotation count `maxbackups` and
rotation size `maxsize`. -/
def xmlToFileLogWriter (filename : String) (props : List xmlProperty) :
    Writer :=
  let acc := props.foldl applyProp (10, strToNumSuffix "100M" 1024)
  .rotate (filename ++ "-%Y%m%d%H") filename 3600 (some acc.1) (some acc.2)

/-- Per-filter logger construction in `InitLogger`'s loop: a fresh
`logrus.New()` logger whose level is the parsed filter level (`none`
models the `panic` on a parse failure), formatter the shared
`txtFormatter`, and whose output is `os.Stdout` for `"console"`, the
rotating file writer at `join(logPath, tag + ".log")` for `"file"`, and
unchanged (the `logrus.New()` default) for any other type string. -/
def buildFilter (logPath : String) (f : xmlFilter) : Option Logger :=
  match parseLevel f.level with
  | none => none
  | some lvl =>
    let base := { logrusNew with
                  level := lvl
                  formatter := Formatter.txtFormatter }
    if f.type = "console" then some { base with out := .osStdout }
    else if f.type = "file" then
      some { base with
        out := xmlToFileLogWriter (pathJoin logPath (f.tag ++ ".log"))
          f.property }
    else some base

/-- Outcome of the per-filter loop: the state after registering every
filter, or the state at the point where an unparseable level made the
source `panic`. -/
inductive LoopResult where
  | ok (st : LogxState)
  | panicked (st : LogxState)
deriving DecidableEq

/-- The `for _, xmlfilt := range xc.Filter` loop: build each filter's
logger and store it under its tag (overwriting an existing binding);
abort with a panic on an unparseable level. -/
def initFilters (logPath : String) (st : LogxState) :
    List xmlFilter → LoopResult
  | [] => .ok st
  | f :: rest =>
    match buildFilter logPath f with
    | none => .panicked st
    | some filt =>
      initFilters logPath
        { st with loggers := mapInsert st.loggers f.tag filt } rest

/-- The logger synthesized for the `stderr` channel when none is
registered: Error threshold, shared formatter, hourly-rotating writer
with link `join(logPath, "stderr.log")` and no rotation count or size
options. -/
def stderrSynth (logPath : String) : Logger :=
  { logrusNew with
    level := Level.error
    formatter := .txtFormatter
    out := Writer.rotate (pathJoin logPath "stderr.log-%Y%m%d%H")
      (pathJoin logPath "stderr.log") 3600 none none }

/-- The logger synthesized for the `stdout` channel when none is
registered: Info threshold, otherwise like `stderrSynth`. -/
def stdoutSynth (logPath : String) : Logger :=
  { logrusNew with
    level := Level.info
    formatter := .txtFormatter
    out := Writer.rotate (pathJoin logPath "stdout.log-%Y%m%d%H")
      (pathJoin logPath "stdout.log") 3600 none none }

/-- The `stderr, ok := loggers["stderr"]` block: return the registered
logger, or synthesize, register and return the default one. -/
def resolveStderr (logPath : String) (st : LogxState) :
    Logger × LogxState :=
  match mapLookup st.loggers "stderr" with
  | some l => (l, st)
  | none =>
    let l := stderrSynth logPath
    (l, { st with loggers := mapInsert st.loggers "stderr" l })

/-- The `stdout, ok := loggers["stdout"]` block. -/
def resolveStdout (logPath : String) (st : LogxState) :
    Logger × LogxState :=
  match mapLookup st.loggers "stdout" with
  | some l => (l, st)
  | none =>
    let l := stdoutSynth logPath
    (l, { st with loggers := mapInsert st.loggers "stdout" l })

/-- Outcome of `os.Open` + `ioutil.ReadAll` + `xml.Unmarshal` on the
configuration file, supplied as an input of the model since file
contents are external: the open or the read can fail, the XML can be
malformed, or a list of filter elements is obtained. -/
inductive ReadOutcome where
  | openFail
  | readFail
  | unmarshalFail
  | parsed (filters : List xmlFilter)
deriving DecidableEq

/-- Result of `InitLogger`: success, the error return for an unreadable
configuration file, the error return for malformed XML or a failed
file-sink construction, or a panic (unparseable level); each carries
the package state as left behind. -/
inductive InitResult where
  | ok (st : LogxState)
  | ioErr (st : LogxState)
  | parseErr (st : LogxState)
  | panicked (st : LogxState)
deriving DecidableEq

/-- State carried by an `InitResult`. -/
def InitResult.state : InitResult → LogxState
  | .ok st => st
  | .ioErr st => st
  | .parseErr st => st
  | .panicked st => st

/-- Steps of `InitLogger` after the configuration is loaded: the filter
loop, the two resolve-or-synthesize blocks for `stderr` and `stdout`,
then the two `logrus.AddHook` calls with hooks bound to the resolved
loggers' outputs. -/
def initLoggerCore (st : LogxState) (logPath : String)
    (filters : List xmlFilter) : InitResult :=
  match initFilters logPath st filters with
  | .panicked s => .panicked s
  | .ok s =>
    let p1 := resolveStderr logPath s
    let p2 := resolveStdout logPath p1.2
    let s4 := addHook p2.2 (errHook p1.1.out)
    let s5 := addHook s4 (outHook p2.1.out)
    .ok s5

/-- `InitLogger` from the source, over an explicit read outcome: a
failed open or read returns the I/O error with the state untouched, a
failed unmarshal returns the parse error with the state untouched, and
a parsed filter list proceeds through `initLoggerCore`. -/
def initLogger (st : LogxState) (logPath : String) (r : ReadOutcome) :
    InitResult :=
  match r with
  | .openFail => .ioErr st
  | .readFail => .ioErr st
  | .unmarshalFail => .parseErr st
  | .parsed filters => initLoggerCore st logPath filters

/-- `GetLogger` from the source: the registered handle, else the
`"stdout"` handle, else the logrus standard logger. -/
def getLogger (st : LogxState) (name : String) : Logger :=
  match mapLookup st.loggers name with
  | some l => l
  | none =>
    match mapLookup st.loggers "stdout" with
    | some l => l
    | none => st.stdLogger

/-! Concrete configurations and states used by witnesses and
counterexamples. -/

/-- A single console channel tagged `app` at Error threshold. -/
def cfgC1 : List xmlFilter :=
  [{ enabled := "true", tag := "app", level := "error", type := "console",
     property := [] }]

/-- State after initializing `cfgC1` from the package-initial state. -/
def stC1 : LogxState :=
  (initLogger packageInitState "/logs" (.parsed cfgC1)).state

/-- State after one initialization with an empty filter list. -/
def stOnce : LogxState :=
  (initLogger packageInitState "/logs" (.parsed [])).state

/-- State after a second initialization from `stOnce`. -/
def stTwice : LogxState :=
  (initLogger stOnce "/logs" (.parsed [])).state

/-- A file channel tagged `app` at Info threshold with no properties. -/
def fC6 : xmlFilter :=
  { enabled := "true", tag := "app", level := "info", type := "file",
    property := [] }

/-- State after initializing `[fC6]` from the package-initial state. -/
def stC6 : LogxState :=
  (initLogger packageInitState "/logs" (.parsed [fC6])).state

/-- A filter whose level string parses to no severity. -/
def fBadLevel : xmlFilter :=
  { enabled := "true", tag := "svc", level := "verbose", type := "console",
    property := [] }

/-- A filter whose type string is neither `console` nor `file`. -/
def fC10 : xmlFilter :=
  { enabled := "true", tag := "net", level := "debug", type := "syslog",
    property := [] }

/-! Association-list lemmas for the registry map. -/

theorem mapLookup_insert_self (m : List (String × Logger)) (k : String)
    (v : Logger) : mapLookup (mapInsert m k v) k = some v := by
  induction m with
  | nil => simp [mapInsert, mapLookup]
  | cons p rest ih =>
    obtain ⟨a, b⟩ := p
    by_cases ha : a = k
    · simp [mapInsert, ha, mapLookup]
    · simp [mapInsert, ha, mapLookup, ih]

theorem mapLookup_insert_ne (m : List (String × Logger)) (k k' : String)
    (v : Logger) (h : k' ≠ k) :
    mapLookup (mapInsert m k v) k' = mapLookup m k' := by
  induction m with
  | nil =>
    simp only [mapInsert, mapLookup]
    rw [if_neg (Ne.symm h)]
  | cons p rest ih =>
    obtain ⟨a, b⟩ := p
    by_cases ha : a = k
    · subst ha
      simp only [mapInsert, if_pos rfl, mapLookup]
      rw [if_neg (Ne.symm h), if_neg (Ne.symm h)]
    · simp only [mapInsert, if_neg ha, mapLookup]
      by_cases hak : a = k'
      · simp [hak]
      · simp [hak, ih]

theorem mem_mapInsert {m : List (String × Logger)} {k : String}
    {v : Logger} {p : String × Logger} (h : p ∈ mapInsert m k v) :
    p = (k, v) ∨ p ∈ m := by
  induction m with
  | nil => simpa [mapInsert] using h
  | cons q rest ih =>
    obtain ⟨a, b⟩ := q
    by_cases ha : a = k
    · simp only [mapInsert, if_pos ha, List.mem_cons] at h
      rcases h with h | h
      · exact Or.inl h
      · exact Or.inr (List.mem_cons_of_mem _ h)
    · simp only [mapInsert, if_neg ha, List.mem_cons] at h
      rcases h with h | h
      · exact Or.inr (by simp [h])
      · rcases ih h with h' | h'
        · exact Or.inl h'
        · exact Or.inr (List.mem_cons_of_mem _ h')

theorem mapLookup_mem {m : List (String × Logger)} {k : String}
    {v : Logger} (h : mapLookup m k = some v) : (k, v) ∈ m := by
  induction m with
  | nil => simp [mapLookup] at h
  | cons q rest ih =>
    obtain ⟨a, b⟩ := q
    by_cases ha : a = k
    · subst ha
      rw [mapLookup, if_pos rfl] at h
      injection h with h
      subst h
      exact List.mem_cons_self _ _
    · rw [mapLookup, if_neg ha] at h
      exact List.mem_cons_of_mem _ (ih h)

theorem getLogger_of_lookup {st : LogxState} {n : String} {l : Logger}
    (h : mapLookup st.loggers n = some l) : getLogger st n = l := by
  simp [getLogger, h]

/-! Lemmas about per-filter construction. -/

theorem buildFilter_console {logPath : String} {f : xmlFilter} {lvl : Level}
    (hlvl : parseLevel f.level = some lvl) (ht : f.type = "console") :
    buildFilter logPath f = some ⟨.osStdout, lvl, .txtFormatter, []⟩ := by
  simp [buildFilter, hlvl, ht, logrusNew]

theorem buildFilter_file {logPath : String} {f : xmlFilter} {lvl : Level}
    (hlvl : parseLevel f.level = some lvl) (ht : f.type = "file") :
    buildFilter logPath f = some
      ⟨xmlToFileLogWriter (pathJoin logPath (f.tag ++ ".log")) f.property,
        lvl, .txtFormatter, []⟩ := by
  simp [buildFilter, hlvl, ht, logrusNew]

theorem buildFilter_other {logPath : String} {f : xmlFilter} {lvl : Level}
    (hlvl : parseLevel f.level = some lvl)
    (h1 : f.type ≠ "console") (h2 : f.type ≠ "file") :
    buildFilter logPath f = some ⟨.osStderr, lvl, .txtFormatter, []⟩ := by
  simp [buildFilter, hlvl, h1, h2, logrusNew]

theorem buildFilter_eq_none {logPath : String} {f : xmlFilter} :
    buildFilter logPath f = none ↔ parseLevel f.level = none := by
  cases hp : parseLevel f.level with
  | none => simp [buildFilter, hp]
  | some lvl =>
    constructor
    · intro hc
      exfalso
      by_cases hcon : f.type = "console"
      · rw [buildFilter_console hp hcon] at hc; cases hc
      · by_cases hfi : f.type = "file"
        · rw [buildFilter_file hp hfi] at hc; cases hc
        · rw [buildFilter_other hp hcon hfi] at hc; cases hc
    · intro hc; cases hc

theorem buildFilter_hooks {logPath : String} {f : xmlFilter} {l : Logger}
    (h : buildFilter logPath f = some l) : l.hooks = [] := by
  cases hp : parseLevel f.level with
  | none => rw [buildFilter_eq_none.mpr hp] at h; cases h
  | some lvl =>
    by_cases hcon : f.type = "console"
    · rw [buildFilter_console hp hcon] at h; cases h; rfl
    · by_cases hfi : f.type = "file"
      · rw [buildFilter_file hp hfi] at h; cases h; rfl
      · rw [buildFilter_other hp hcon hfi] at h; cases h; rfl

/-! Lemmas about the filter loop. -/

theorem initFilters_ok_std {logPath : String} :
    ∀ {fs : List xmlFilter} {st st' : LogxState},
      initFilters logPath st fs = .ok st' → st'.stdLogger = st.stdLogger := by
  intro fs
  induction fs with
  | nil => intro st st' h; cases h; rfl
  | cons f rest ih =>
    intro st st' h
    cases hb : buildFilter logPath f with
    | none =>
      simp only [initFilters, hb] at h
      cases h
    | some filt =>
      simp only [initFilters, hb] at h
      have h2 := ih h
      exact h2

theorem initFilters_ok_inv {logPath : String} :
    ∀ {fs : List xmlFilter} {st st' : LogxState},
      (∀ p ∈ st.loggers, (Prod.snd p).hooks = []) →
      initFilters logPath st fs = .ok st' →
      ∀ p ∈ st'.loggers, (Prod.snd p).hooks = [] := by
  intro fs
  induction fs with
  | nil => intro st st' hinv h; cases h; exact hinv
  | cons f rest ih =>
    intro st st' hinv h
    cases hb : buildFilter logPath f with
    | none =>
      simp only [initFilters, hb] at h
      cases h
    | some filt =>
      simp only [initFilters, hb] at h
      refine ih (fun p hp => ?_) h
      rcases mem_mapInsert hp with h' | h'
      · rw [h']; exact buildFilter_hooks hb
      · exact hinv p h'

theorem initFilters_ok_lookup_none {logPath : String} {k : String} :
    ∀ {fs : List xmlFilter} {st st' : LogxState},
      mapLookup st.loggers k = none →
      (∀ f ∈ fs, f.tag ≠ k) →
      initFilters logPath st fs = .ok st' →
      mapLookup st'.loggers k = none := by
  intro fs
  induction fs with
  | nil => intro st st' hk _ h; cases h; exact hk
  | cons f rest ih =>
    intro st st' hk hfs h
    cases hb : buildFilter logPath f with
    | none =>
      simp only [initFilters, hb] at h
      cases h
    | some filt =>
      simp only [initFilters, hb] at h
      refine ih ?_ (fun g hg => hfs g (List.mem_cons_of_mem _ hg)) h
      show mapLookup (mapInsert st.loggers f.tag filt) k = none
      rw [mapLookup_insert_ne _ _ _ _ (Ne.symm (hfs f (List.mem_cons_self f rest)))]
      exact hk

theorem initFilters_panic_of_bad {logPath : String} :
    ∀ {fs : List xmlFilter} {st : LogxState},
      (∃ f ∈ fs, parseLevel f.level = none) →
      ∃ st', initFilters logPath st fs = .panicked st' := by
  intro fs
  induction fs with
  | nil => intro st h; simp at h
  | cons f rest ih =>
    intro st h
    cases hb : buildFilter logPath f with
    | none => exact ⟨st, by simp [initFilters, hb]⟩
    | some filt =>
      rcases h with ⟨g, hg, hgl⟩
      rcases List.mem_cons.mp hg with rfl | hg'
      · rw [buildFilter_eq_none.mpr hgl] at hb; cases hb
      · rcases @ih { st with
            loggers := mapInsert st.loggers f.tag filt } ⟨g, hg', hgl⟩ with ⟨st', h'⟩
        exact ⟨st', by simp only [initFilters, hb]; exact h'⟩

/-! Lemmas about the resolve-or-synthesize blocks. -/

theorem resolveStderr_std (logPath : String) (st : LogxState) :
    (resolveStderr logPath st).2.stdLogger = st.stdLogger := by
  cases h : mapLookup st.loggers "stderr" <;> simp [resolveStderr, h]

theorem resolveStderr_lookup (logPath : String) (st : LogxState) :
    mapLookup (resolveStderr logPath st).2.loggers "stderr"
      = some (resolveStderr logPath st).1 := by
  cases h : mapLookup st.loggers "stderr" with
  | none => simp [resolveStderr, h, mapLookup_insert_self]
  | some l => simp [resolveStderr, h]

theorem resolveStderr_lookup_ne (logPath : String) (st : LogxState)
    (k : String) (hk : k ≠ "stderr") :
    mapLookup (resolveStderr logPath st).2.loggers k
      = mapLookup st.loggers k := by
  cases h : mapLookup st.loggers "stderr" <;>
    simp [resolveStderr, h, mapLookup_insert_ne _ _ _ _ hk]

theorem resolveStderr_of_none (logPath : String) (st : LogxState)
    (h : mapLookup st.loggers "stderr" = none) :
    (resolveStderr logPath st).1 = stderrSynth logPath := by
  simp [resolveStderr, h]

theorem resolveStderr_inv (logPath : String) (st : LogxState)
    (hinv : ∀ p ∈ st.loggers, (Prod.snd p).hooks = []) :
    ∀ p ∈ (resolveStderr logPath st).2.loggers, (Prod.snd p).hooks = [] := by
  cases h : mapLookup st.loggers "stderr" with
  | none =>
    intro p hp
    simp only [resolveStderr, h] at hp
    rcases mem_mapInsert hp with h' | h'
    · rw [h']; rfl
    · exact hinv p h'
  | some l => intro p hp; simp only [resolveStderr, h] at hp; exact hinv p hp

theorem resolveStdout_std (logPath : String) (st : LogxState) :
    (resolveStdout logPath st).2.stdLogger = st.stdLogger := by
  cases h : mapLookup st.loggers "stdout" <;> simp [resolveStdout, h]

theorem resolveStdout_lookup (logPath : String) (st : LogxState) :
    mapLookup (resolveStdout logPath st).2.loggers "stdout"
      = some (resolveStdout logPath st).1 := by
  cases h : mapLookup st.loggers "stdout" with
  | none => simp [resolveStdout, h, mapLookup_insert_self]
  | some l => simp [resolveStdout, h]

theorem resolveStdout_lookup_ne (logPath : String) (st : LogxState)
    (k : String) (hk : k ≠ "stdout") :
    mapLookup (resolveStdout logPath st).2.loggers k
      = mapLookup st.loggers k := by
  cases h : mapLookup st.loggers "stdout" <;>
    simp [resolveStdout, h, mapLookup_insert_ne _ _ _ _ hk]

theorem resolveStdout_of_none (logPath : String) (st : LogxState)
    (h : mapLookup st.loggers "stdout" = none) :
    (resolveStdout logPath st).1 = stdoutSynth logPath := by
  simp [resolveStdout, h]

theorem resolveStdout_inv (logPath : String) (st : LogxState)
    (hinv : ∀ p ∈ st.loggers, (Prod.snd p).hooks = []) :
    ∀ p ∈ (resolveStdout logPath st).2.loggers, (Prod.snd p).hooks = [] := by
  cases h : mapLookup st.loggers "stdout" with
  | none =>
    intro p hp
    simp only [resolveStdout, h] at hp
    rcases mem_mapInsert hp with h' | h'
    · rw [h']; rfl
    · exact hinv p h'
  | some l => intro p hp; simp only [resolveStdout, h] at hp; exact hinv p hp

/-! Structure of a successful initialization. -/

theorem initLogger_ok_spec {st : LogxState} {logPath : String}
    {r : ReadOutcome} {st' : LogxState}
    (h : initLogger st logPath r = .ok st') :
    ∃ fs s1, r = .parsed fs ∧ initFilters logPath st fs = .ok s1 ∧
      st'.loggers
        = (resolveStdout logPath (resolveStderr logPath s1).2).2.loggers ∧
      mapLookup st'.loggers "stderr" = some (resolveStderr logPath s1).1 ∧
      mapLookup st'.loggers "stdout"
        = some (resolveStdout logPath (resolveStderr logPath s1).2).1 ∧
      st'.stdLogger.out = st.stdLogger.out ∧
      st'.stdLogger.level = st.stdLogger.level ∧
      st'.stdLogger.hooks = st.stdLogger.hooks ++
        [errHook (resolveStderr logPath s1).1.out,
         outHook (resolveStdout logPath (resolveStderr logPath s1).2).1.out] := by
  cases r with
  | openFail => cases h
  | readFail => cases h
  | unmarshalFail => cases h
  | parsed fs =>
    simp only [initLogger] at h
    cases hf : initFilters logPath st fs with
    | panicked s =>
      simp only [initLoggerCore, hf] at h
      cases h
    | ok s1 =>
      simp only [initLoggerCore, hf] at h
      cases h
      have hstd : (resolveStdout logPath
          (resolveStderr logPath s1).2).2.stdLogger = st.stdLogger := by
        rw [resolveStdout_std, resolveStderr_std, initFilters_ok_std hf]
      refine ⟨fs, s1, rfl, hf, rfl, ?_, ?_, ?_, ?_, ?_⟩
      · show mapLookup (resolveStdout logPath
          (resolveStderr logPath s1).2).2.loggers "stderr" = _
        rw [resolveStdout_lookup_ne _ _ _ (by decide)]
        exact resolveStderr_lookup _ _
      · exact resolveStdout_lookup _ _
      · show (addHook (addHook _ _) _).stdLogger.out = _
        simp [addHook, hstd]
      · show (addHook (addHook _ _) _).stdLogger.level = _
        simp [addHook, hstd]
      · show (addHook (addHook _ _) _).stdLogger.hooks = _
        simp [addHook, hstd]

theorem initLogger_ok_inv {st : LogxState} {logPath : String}
    {r : ReadOutcome} {st' : LogxState}
    (hinv : ∀ p ∈ st.loggers, (Prod.snd p).hooks = [])
    (h : initLogger st logPath r = .ok st') :
    ∀ p ∈ st'.loggers, (Prod.snd p).hooks = [] := by
  obtain ⟨fs, s1, _, hf, hlog, _⟩ := initLogger_ok_spec h
  rw [hlog]
  exact resolveStdout_inv _ _ (resolveStderr_inv _ _ (initFilters_ok_inv hinv hf))

/-! Arithmetic and string lemmas for the size parser. -/

theorem wrap64_eq_of_range {x : Int} (h1 : 0 ≤ x) (h2 : x ≤ int64Max) :
    wrap64 x = x := by
  unfold wrap64
  unfold int64Max at h2
  rw [Int.emod_eq_of_lt (by omega) (by omega)]
  omega

theorem wrap64_zero : wrap64 0 = 0 := by decide

theorem isDigit_not_sign {c : Char} (h : c.isDigit = true) :
    c ≠ '-' ∧ c ≠ '+' := by
  constructor <;> intro e <;> subst e <;> exact absurd h (by decide)

theorem goAtoi_digits {ds : List Char} (h1 : ds ≠ [])
    (h2 : ds.all Char.isDigit = true)
    (h3 : (digitsVal ds : Int) ≤ int64Max) :
    goAtoi (String.mk ds) = (digitsVal ds : Int) := by
  obtain ⟨d, t, rfl⟩ := List.exists_cons_of_ne_nil h1
  have hd : d.isDigit = true := by
    rw [List.all_cons, Bool.and_eq_true] at h2
    exact h2.1
  obtain ⟨hdm, hdp⟩ := isDigit_not_sign hd
  have hnonneg : (0 : Int) ≤ (digitsVal (d :: t) : Int) := Int.ofNat_nonneg _
  unfold goAtoi
  simp only [List.head?, Option.some.injEq, hdm, hdp, or_self, if_false]
  rw [if_neg (by simp [h2]), if_neg (not_lt.mpr h3),
    if_neg (by unfold int64Min; omega)]

theorem goAtoi_nil : goAtoi (String.mk []) = 0 := by decide

theorem goAtoi_junk {c : Char} (t : List Char) (h1 : c.isDigit = false)
    (h2 : c ≠ '-') (h3 : c ≠ '+') : goAtoi (String.mk (c :: t)) = 0 := by
  unfold goAtoi
  simp only [List.head?, Option.some.injEq, h2, h3, or_self, if_false]
  rw [if_pos (by simp [h1])]

theorem suffixFactor_digit {c : Char} (h : c.isDigit = true) (mult : Int) :
    suffixFactor c mult = none := by
  have hG : c ≠ 'G' := by intro e; subst e; exact absurd h (by decide)
  have hg : c ≠ 'g' := by intro e; subst e; exact absurd h (by decide)
  have hM : c ≠ 'M' := by intro e; subst e; exact absurd h (by decide)
  have hm : c ≠ 'm' := by intro e; subst e; exact absurd h (by decide)
  have hK : c ≠ 'K' := by intro e; subst e; exact absurd h (by decide)
  have hk : c ≠ 'k' := by intro e; subst e; exact absurd h (by decide)
  simp [suffixFactor, hG, hg, hM, hm, hK, hk]

theorem strToNumSuffix_suffix {ds : List Char} {c : Char} {f : Int}
    (mult : Int) (h1 : ds ≠ []) (hsf : suffixFactor c mult = some f) :
    strToNumSuffix (String.mk (ds ++ [c])) mult
      = wrap64 (goAtoi (String.mk ds) * f) := by
  have hlen : 1 < (ds ++ [c]).length := by
    have := List.length_pos.mpr h1
    simp only [List.length_append, List.length_cons, List.length_nil]
    omega
  unfold strToNumSuffix
  simp only [hlen, if_pos, List.getLast?_concat, hsf, List.dropLast_concat]

theorem strToNumSuffix_digits {ds : List Char} (mult : Int)
    (h2 : ds.all Char.isDigit = true)
    (h3 : (digitsVal ds : Int) ≤ int64Max) :
    strToNumSuffix (String.mk ds) mult = (digitsVal ds : Int) := by
  by_cases hl : 1 < ds.length
  · have hne : ds ≠ [] := by intro e; subst e; simp at hl
    have hld : (ds.getLast hne).isDigit = true :=
      List.all_eq_true.mp h2 _ (List.getLast_mem hne)
    unfold strToNumSuffix
    simp only [hl, if_pos, List.getLast?_eq_getLast ds hne,
      suffixFactor_digit hld mult]
    rw [goAtoi_digits hne h2 h3, mul_one]
    exact wrap64_eq_of_range (Int.ofNat_nonneg _) h3
  · unfold strToNumSuffix
    simp only [hl, if_neg, if_false]
    rcases ds with _ | ⟨d, t⟩
    · rw [goAtoi_nil]
      simpa [digitsVal] using wrap64_zero
    · have hne : d :: t ≠ [] := by simp
      rw [goAtoi_digits hne h2 h3, mul_one]
      exact wrap64_eq_of_range (Int.ofNat_nonneg _) h3

theorem suffixFactor_K {c : Char} (hc : c = 'K' ∨ c = 'k') (mult : Int) :
    suffixFactor c mult = some (wrap64 (1 * mult)) := by
  rcases hc with rfl | rfl <;> rfl

theorem suffixFactor_M {c : Char} (hc : c = 'M' ∨ c = 'm') (mult : Int) :
    suffixFactor c mult = some (wrap64 (wrap64 (1 * mult) * mult)) := by
  rcases hc with rfl | rfl <;> rfl

theorem suffixFactor_G {c : Char} (hc : c = 'G' ∨ c = 'g') (mult : Int) :
    suffixFactor c mult
      = some (wrap64 (wrap64 (wrap64 (1 * mult) * mult) * mult)) := by
  rcases hc with rfl | rfl <;> rfl

theorem strToNumSuffix_K {ds : List Char} {c : Char} {mult : Int}
    (hc : c = 'K' ∨ c = 'k') (h1 : ds ≠ [])
    (h2 : ds.all Char.isDigit = true) (hm : 1 ≤ mult)
    (hb : ((digitsVal ds : Int) + 1) * mult ≤ int64Max) :
    strToNumSuffix (String.mk (ds ++ [c])) mult
      = (digitsVal ds : Int) * mult := by
  have hd0 : (0 : Int) ≤ (digitsVal ds : Int) := Int.ofNat_nonneg _
  have hm0 : (0 : Int) ≤ mult := le_trans zero_le_one hm
  have hdm0 : (0 : Int) ≤ (digitsVal ds : Int) * mult := mul_nonneg hd0 hm0
  have hmmax : mult ≤ int64Max := by nlinarith
  have hdmax : (digitsVal ds : Int) ≤ int64Max := by nlinarith
  have hw1 : wrap64 (1 * mult) = mult := by
    rw [one_mul]
    exact wrap64_eq_of_range hm0 hmmax
  rw [strToNumSuffix_suffix mult h1 (suffixFactor_K hc mult), hw1,
    goAtoi_digits h1 h2 hdmax]
  exact wrap64_eq_of_range hdm0 (by nlinarith)

theorem strToNumSuffix_M {ds : List Char} {c : Char} {mult : Int}
    (hc : c = 'M' ∨ c = 'm') (h1 : ds ≠ [])
    (h2 : ds.all Char.isDigit = true) (hm : 1 ≤ mult)
    (hb : ((digitsVal ds : Int) + 1) * (mult * mult) ≤ int64Max) :
    strToNumSuffix (String.mk (ds ++ [c])) mult
      = (digitsVal ds : Int) * (mult * mult) := by
  have hd0 : (0 : Int) ≤ (digitsVal ds : Int) := Int.ofNat_nonneg _
  have hm0 : (0 : Int) ≤ mult := le_trans zero_le_one hm
  have hsq : mult ≤ mult * mult := by nlinarith
  have hm2max : mult * mult ≤ int64Max := by nlinarith
  have hmmax : mult ≤ int64Max := le_trans hsq hm2max
  have hdmax : (digitsVal ds : Int) ≤ int64Max := by nlinarith
  have hw1 : wrap64 (1 * mult) = mult := by
    rw [one_mul]
    exact wrap64_eq_of_range hm0 hmmax
  have hw2 : wrap64 (mult * mult) = mult * mult :=
    wrap64_eq_of_range (mul_nonneg hm0 hm0) hm2max
  rw [strToNumSuffix_suffix mult h1 (suffixFactor_M hc mult), hw1, hw2,
    goAtoi_digits h1 h2 hdmax]
  exact wrap64_eq_of_range (mul_nonneg hd0 (mul_nonneg hm0 hm0)) (by nlinarith)

theorem strToNumSuffix_G {ds : List Char} {c : Char} {mult : Int}
    (hc : c = 'G' ∨ c = 'g') (h1 : ds ≠ [])
    (h2 : ds.all Char.isDigit = true) (hm : 1 ≤ mult)
    (hb : ((digitsVal ds : Int) + 1) * (mult * mult * mult) ≤ int64Max) :
    strToNumSuffix (String.mk (ds ++ [c])) mult
      = (digitsVal ds : Int) * (mult * mult * mult) := by
  have hd0 : (0 : Int) ≤ (digitsVal ds : Int) := Int.ofNat_nonneg _
  have hm0 : (0 : Int) ≤ mult := le_trans zero_le_one hm
  have hm20 : (0 : Int) ≤ mult * mult := mul_nonneg hm0 hm0
  have hm30 : (0 : Int) ≤ mult * mult * mult := mul_nonneg hm20 hm0
  have hsq : mult ≤ mult * mult := by nlinarith
  have hcube : mult * mult ≤ mult * mult * mult := by nlinarith
  have hm3max : mult * mult * mult ≤ int64Max := by nlinarith
  have hm2max : mult * mult ≤ int64Max := le_trans hcube hm3max
  have hmmax : mult ≤ int64Max := le_trans hsq hm2max
  have hdmax : (digitsVal ds : Int) ≤ int64Max := by nlinarith
  have hw1 : wrap64 (1 * mult) = mult := by
    rw [one_mul]
    exact wrap64_eq_of_range hm0 hmmax
  have hw2 : wrap64 (mult * mult) = mult * mult :=
    wrap64_eq_of_range hm20 hm2max
  have hw3 : wrap64 (mult * mult * mult) = mult * mult * mult :=
    wrap64_eq_of_range hm30 hm3max
  rw [strToNumSuffix_suffix mult h1 (suffixFactor_G hc mult), hw1, hw2, hw3,
    goAtoi_digits h1 h2 hdmax]
  exact wrap64_eq_of_range (mul_nonneg hd0 hm30) (by nlinarith)


theorem strToNumSuffix_junk {c : Char} (cs : List Char) (mult : Int)
    (h1 : c.isDigit = false) (h2 : c ≠ '-') (h3 : c ≠ '+') :
    strToNumSuffix (String.mk (c :: cs)) mult = 0 := by
  unfold strToNumSuffix
  by_cases hl : 1 < (c :: cs).length
  · rcases cs with _ | ⟨a, t⟩
    · simp at hl
    · cases hgl : (c :: a :: t).getLast? with
      | none => simp at hgl
      | some d =>
        cases hsf : suffixFactor d mult with
        | none =>
          simp only [hl, if_pos, hgl, hsf]
          rw [goAtoi_junk _ h1 h2 h3, zero_mul, wrap64_zero]
        | some f =>
          simp only [hl, if_pos, hgl, hsf, List.dropLast]
          rw [goAtoi_junk _ h1 h2 h3, zero_mul, wrap64_zero]
  · simp only [hl, if_neg, if_false]
    rw [goAtoi_junk _ h1 h2 h3, zero_mul, wrap64_zero]


/-- C3: the size parser multiplies the parsed decimal integer by
`mult` for a trailing case-insensitive K, by `mult * mult` for M, by
`mult * mult * mult` for G, returns the raw integer when there is no
suffix, and yields 0 on non-numeric leading content; in particular
`parse("100M", 1024) = 104857600`, `parse("1K", 1000) = 1000`,
`parse("5", 1024) = 5` and `parse("", 1024) = 0`. -/
theorem C3_strToNumSuffix_spec :
    strToNumSuffix "100M" 1024 = 104857600 ∧
    strToNumSuffix "1K" 1000 = 1000 ∧
    strToNumSuffix "5" 1024 = 5 ∧
    strToNumSuffix "" 1024 = 0 ∧
    (∀ (ds : List Char) (c : Char) (mult : Int), c = 'K' ∨ c = 'k' →
      ds ≠ [] → ds.all Char.isDigit = true → 1 ≤ mult →
      ((digitsVal ds : Int) + 1) * mult ≤ int64Max →
      strToNumSuffix (String.mk (ds ++ [c])) mult
        = (digitsVal ds : Int) * mult) ∧
    (∀ (ds : List Char) (c : Char) (mult : Int), c = 'M' ∨ c = 'm' →
      ds ≠ [] → ds.all Char.isDigit = true → 1 ≤ mult →
      ((digitsVal ds : Int) + 1) * (mult * mult) ≤ int64Max →
      strToNumSuffix (String.mk (ds ++ [c])) mult
        = (digitsVal ds : Int) * (mult * mult)) ∧
    (∀ (ds : List Char) (c : Char) (mult : Int), c = 'G' ∨ c = 'g' →
      ds ≠ [] → ds.all Char.isDigit = true → 1 ≤ mult →
      ((digitsVal ds : Int) + 1) * (mult * mult * mult) ≤ int64Max →
      strToNumSuffix (String.mk (ds ++ [c])) mult
        = (digitsVal ds : Int) * (mult * mult * mult)) ∧
    (∀ (ds : List Char) (mult : Int), ds.all Char.isDigit = true →
      (digitsVal ds : Int) ≤ int64Max →
      strToNumSuffix (String.mk ds) mult = (digitsVal ds : Int)) ∧
    (∀ (c : Char) (cs : List Char) (mult : Int), c.isDigit = false →
      c ≠ '-' → c ≠ '+' →
      strToNumSuffix (String.mk (c :: cs)) mult = 0) :=
  ⟨by decide, by decide, by decide, by decide,
   fun _ _ _ hc h1 h2 hm hb => strToNumSuffix_K hc h1 h2 hm hb,
   fun _ _ _ hc h1 h2 hm hb => strToNumSuffix_M hc h1 h2 hm hb,
   fun _ _ _ hc h1 h2 hm hb => strToNumSuffix_G hc h1 h2 hm hb,
   fun _ mult h2 h3 => strToNumSuffix_digits mult h2 h3,
   fun _ cs mult h1 h2 h3 => strToNumSuffix_junk cs mult h1 h2 h3⟩

/-- Witness for C3: the quantified clauses evaluated at concrete
inputs. -/
theorem C3_strToNumSuffix_spec_witness :
    strToNumSuffix (String.mk (['2'] ++ ['K'])) 1000
      = (digitsVal ['2'] : Int) * 1000 ∧
    strToNumSuffix (String.mk (['3'] ++ ['m'])) 1024
      = (digitsVal ['3'] : Int) * (1024 * 1024) ∧
    strToNumSuffix (String.mk (['1'] ++ ['G'])) 1024
      = (digitsVal ['1'] : Int) * (1024 * 1024 * 1024) ∧
    strToNumSuffix (String.mk ['7']) 1024 = (digitsVal ['7'] : Int) ∧
    strToNumSuffix (String.mk ['x', '2']) 1024 = 0 :=
  ⟨C3_strToNumSuffix_spec.2.2.2.2.1 ['2'] 'K' 1000 (Or.inl rfl) (by decide)
      (by decide) (by decide) (by decide),
   C3_strToNumSuffix_spec.2.2.2.2.2.1 ['3'] 'm' 1024 (Or.inr rfl) (by decide)
      (by decide) (by decide) (by decide),
   C3_strToNumSuffix_spec.2.2.2.2.2.2.1 ['1'] 'G' 1024 (Or.inl rfl)
      (by decide) (by decide) (by decide) (by decide),
   C3_strToNumSuffix_spec.2.2.2.2.2.2.2.1 ['7'] 1024 (by decide) (by decide),
   C3_strToNumSuffix_spec.2.2.2.2.2.2.2.2 'x' ['2'] 1024 (by decide)
      (by decide) (by decide)⟩

theorem resolveStderr_lookup_some {logPath : String} {st : LogxState}
    {k : String} {v : Logger} (h : mapLookup st.loggers k = some v) :
    mapLookup (resolveStderr logPath st).2.loggers k = some v := by
  cases hs : mapLookup st.loggers "stderr" with
  | some l => simp only [resolveStderr, hs]; exact h
  | none =>
    have hk : k ≠ "stderr" := by
      intro e; subst e; rw [h] at hs; cases hs
    simp only [resolveStderr, hs]
    rw [mapLookup_insert_ne _ _ _ _ hk]
    exact h

theorem resolveStdout_lookup_some {logPath : String} {st : LogxState}
    {k : String} {v : Logger} (h : mapLookup st.loggers k = some v) :
    mapLookup (resolveStdout logPath st).2.loggers k = some v := by
  cases hs : mapLookup st.loggers "stdout" with
  | some l => simp only [resolveStdout, hs]; exact h
  | none =>
    have hk : k ≠ "stdout" := by
      intro e; subst e; rw [h] at hs; cases hs
    simp only [resolveStdout, hs]
    rw [mapLookup_insert_ne _ _ _ _ hk]
    exact h

theorem initFilters_panicked_std {logPath : String} :
    ∀ {fs : List xmlFilter} {st s : LogxState},
      initFilters logPath st fs = .panicked s → s.stdLogger = st.stdLogger := by
  intro fs
  induction fs with
  | nil => intro st s h; cases h
  | cons f rest ih =>
    intro st s h
    cases hb : buildFilter logPath f with
    | none =>
      simp only [initFilters, hb] at h
      cases h
      rfl
    | some filt =>
      simp only [initFilters, hb] at h
      have h2 := ih h
      exact h2

theorem initLogger_std_preserved (st : LogxState) (logPath : String)
    (r : ReadOutcome) :
    (initLogger st logPath r).state.stdLogger.out = st.stdLogger.out ∧
    (initLogger st logPath r).state.stdLogger.level = st.stdLogger.level := by
  cases r with
  | openFail => exact ⟨rfl, rfl⟩
  | readFail => exact ⟨rfl, rfl⟩
  | unmarshalFail => exact ⟨rfl, rfl⟩
  | parsed fs =>
    cases hf : initFilters logPath st fs with
    | panicked s =>
      have hs := initFilters_panicked_std hf
      simp only [initLogger, initLoggerCore, hf, InitResult.state]
      rw [hs]
      exact ⟨rfl, rfl⟩
    | ok s1 =>
      have hstd : (resolveStdout logPath
          (resolveStderr logPath s1).2).2.stdLogger = st.stdLogger := by
        rw [resolveStdout_std, resolveStderr_std, initFilters_ok_std hf]
      simp only [initLogger, initLoggerCore, hf, InitResult.state]
      constructor <;> simp [addHook, hstd]

theorem foldl_applyProp_id {props : List xmlProperty}
    (h : ∀ p ∈ props, p.name ≠ "maxbackups" ∧ p.name ≠ "maxsize") :
    ∀ acc : Nat × Int, props.foldl applyProp acc = acc := by
  induction props with
  | nil => intro acc; rfl
  | cons p ps ih =>
    intro acc
    rw [List.foldl_cons]
    have hstep : applyProp acc p = acc := by
      simp only [applyProp]
      rw [if_neg (h p (List.mem_cons_self p ps)).1,
        if_neg (h p (List.mem_cons_self p ps)).2]
    rw [hstep]
    exact ih (fun q hq => h q (List.mem_cons_of_mem _ hq)) acc

theorem xmlToFileLogWriter_defaults (filename : String)
    {props : List xmlProperty}
    (h : ∀ p ∈ props, p.name ≠ "maxbackups" ∧ p.name ≠ "maxsize") :
    xmlToFileLogWriter filename props =
      Writer.rotate (filename ++ "-%Y%m%d%H") filename 3600 (some 10)
        (some (strToNumSuffix "100M" 1024)) := by
  unfold xmlToFileLogWriter
  rw [foldl_applyProp_id h]

/-- C1 (counterexample to the claim as stated): after initializing a
console channel `app` at Error threshold, a record emitted at Error
through the registry handle for `app` reaches only `os.Stdout`; the
stderr sink is not among the writers reached, because the routing hooks
live on the standard logger, not on the channel handle. -/
theorem C1_routing_counterexample :
    initLogger packageInitState "/logs" (.parsed cfgC1) = .ok stC1 ∧
    (getLogger stC1 "app").emitWriters .error = [Writer.osStdout] ∧
    (getLogger stC1 "stderr").out ∉ (getLogger stC1 "app").emitWriters .error
    := by decide

/-- C1 (amended): the severity-routing hooks installed at
initialization are attached to the logrus standard logger only.  After
a successful initialization, the appended hooks map each of Error,
Panic and Fatal to the stderr channel sink and each of Debug, Info and
Warn to the stdout channel sink, so a record emitted through the
standard logger at any of those levels that passes the standard logger
threshold is additionally written to the corresponding sink, on top of
the standard logger own output (a record above the threshold - such as
Debug at the default Info threshold - is dropped entirely and reaches
no writer at all); a record emitted through any handle registered in
the registry reaches at most that handle own sink and never receives
the extra hook write. -/
theorem C1_routing_hooks_on_std_only (st : LogxState) (logPath : String)
    (fs : List xmlFilter) (st' : LogxState)
    (hinit : initLogger st logPath (.parsed fs) = .ok st')
    (hreg : ∀ p ∈ st.loggers, (Prod.snd p).hooks = []) :
    (∀ lvl, lvl = Level.error ∨ lvl = Level.panic ∨ lvl = Level.fatal →
      lvl.toNat ≤ st'.stdLogger.level.toNat →
      (getLogger st' "stderr").out ∈ st'.stdLogger.emitWriters lvl ∧
      st'.stdLogger.out ∈ st'.stdLogger.emitWriters lvl) ∧
    (∀ lvl, lvl = Level.debug ∨ lvl = Level.info ∨ lvl = Level.warn →
      lvl.toNat ≤ st'.stdLogger.level.toNat →
      (getLogger st' "stdout").out ∈ st'.stdLogger.emitWriters lvl ∧
      st'.stdLogger.out ∈ st'.stdLogger.emitWriters lvl) ∧
    (∀ lvl, ¬ lvl.toNat ≤ st'.stdLogger.level.toNat →
      st'.stdLogger.emitWriters lvl = []) ∧
    (∀ name l, mapLookup st'.loggers name = some l → ∀ lvl,
      l.emitWriters lvl = [l.out] ∨ l.emitWriters lvl = []) := by
  obtain ⟨fs2, s1, hr, hf, hlog, hse, hso, hout, hlvl, hh⟩ :=
    initLogger_ok_spec hinit
  have hgse := getLogger_of_lookup hse
  have hgso := getLogger_of_lookup hso
  refine ⟨?_, ?_, ?_, ?_⟩
  · intro lvl hl hen
    constructor
    · rw [hgse]
      unfold Logger.emitWriters
      rw [if_pos hen]
      refine List.mem_append_left _ (List.mem_filterMap.mpr
        ⟨errHook (resolveStderr logPath s1).1.out, ?_, ?_⟩)
      · rw [hh]
        exact List.mem_append_right _ (List.mem_cons_self _ _)
      · rcases hl with rfl | rfl | rfl <;> rfl
    · unfold Logger.emitWriters
      rw [if_pos hen]
      exact List.mem_append_right _ (List.mem_singleton.mpr rfl)
  · intro lvl hl hen
    constructor
    · rw [hgso]
      unfold Logger.emitWriters
      rw [if_pos hen]
      refine List.mem_append_left _ (List.mem_filterMap.mpr
        ⟨outHook (resolveStdout logPath (resolveStderr logPath s1).2).1.out,
          ?_, ?_⟩)
      · rw [hh]
        exact List.mem_append_right _
          (List.mem_cons_of_mem _ (List.mem_cons_self _ _))
      · rcases hl with rfl | rfl | rfl <;> rfl
    · unfold Logger.emitWriters
      rw [if_pos hen]
      exact List.mem_append_right _ (List.mem_singleton.mpr rfl)
  · intro lvl hen
    unfold Logger.emitWriters
    rw [if_neg hen]
  · intro name l hl lvl
    have hhk : l.hooks = [] :=
      initLogger_ok_inv hreg hinit (name, l) (mapLookup_mem hl)
    by_cases hle : lvl.toNat ≤ l.level.toNat
    · left
      simp [Logger.emitWriters, hle, hhk]
    · right
      simp [Logger.emitWriters, hle]

/-- Witness for C1 (amended): after one initialization with an empty
configuration, a Fatal record through the standard logger reaches the
stderr sink, a Warn record reaches the stdout sink, and a Debug record
(above the default Info threshold) reaches no writer; a registered
channel reaches only its own sink. -/
theorem C1_routing_hooks_on_std_only_witness :
    (getLogger stOnce "stderr").out
      ∈ stOnce.stdLogger.emitWriters .fatal ∧
    (getLogger stOnce "stdout").out
      ∈ stOnce.stdLogger.emitWriters .warn ∧
    stOnce.stdLogger.emitWriters .debug = [] :=
  ⟨((C1_routing_hooks_on_std_only packageInitState "/logs" [] stOnce
      (by decide) (by decide)).1 .fatal (by decide) (by decide)).1,
   ((C1_routing_hooks_on_std_only packageInitState "/logs" [] stOnce
      (by decide) (by decide)).2.1 .warn (by decide) (by decide)).1,
   (C1_routing_hooks_on_std_only packageInitState "/logs" [] stOnce
      (by decide) (by decide)).2.2.1 .debug (by decide)⟩

/-- C2 (counterexample to the claim as stated): when no channel is
registered, the generic default handle returned by `GetLogger` is the
logrus standard logger, which writes to the standard error stream, not
to the standard output stream. -/
theorem C2_default_handle_counterexample :
    getLogger packageInitState "nonexistent" = packageInitState.stdLogger ∧
    (getLogger packageInitState "nonexistent").out = Writer.osStderr ∧
    (getLogger packageInitState "nonexistent").out ≠ Writer.osStdout := by
  decide

/-- C2 (amended): `GetLogger` returns the registered handle for the
name if present, else the handle registered under `stdout` if present,
else the logrus standard logger, whose output stream is the standard
error stream at Info threshold (and initialization never redirects the
standard logger output or threshold); the function is total. -/
theorem C2_getLogger_fallback (st : LogxState) (name : String) :
    (∀ l, mapLookup st.loggers name = some l → getLogger st name = l) ∧
    (mapLookup st.loggers name = none →
      ∀ l, mapLookup st.loggers "stdout" = some l → getLogger st name = l) ∧
    (mapLookup st.loggers name = none →
      mapLookup st.loggers "stdout" = none →
      getLogger st name = st.stdLogger) ∧
    packageInitState.stdLogger.out = Writer.osStderr ∧
    packageInitState.stdLogger.level = Level.info ∧
    (∀ logPath r,
      (initLogger st logPath r).state.stdLogger.out = st.stdLogger.out ∧
      (initLogger st logPath r).state.stdLogger.level
        = st.stdLogger.level) := by
  refine ⟨?_, ?_, ?_, rfl, rfl,
    fun logPath r => initLogger_std_preserved st logPath r⟩
  · intro l h
    simp [getLogger, h]
  · intro h l h2
    simp [getLogger, h, h2]
  · intro h h2
    simp [getLogger, h, h2]

/-- Witness for C2 (amended): the bare-fallback branch evaluated at the
package-initial state. -/
theorem C2_getLogger_fallback_witness :
    getLogger packageInitState "nope" = packageInitState.stdLogger :=
  (C2_getLogger_fallback packageInitState "nope").2.2.1 (by decide) (by decide)

/-- C4 (counterexample to the claim as stated): a malformed
`maxbackups` property does not keep the default retention count of 10;
the discarded `ParseUint` failure value 0 replaces it. -/
theorem C4_malformed_maxbackups_counterexample :
    xmlToFileLogWriter "app.log" [{ name := "maxbackups", value := "oops" }]
      = Writer.rotate "app.log-%Y%m%d%H" "app.log" 3600 (some 0)
          (some 104857600) ∧
    xmlToFileLogWriter "app.log" [{ name := "maxbackups", value := "oops" }]
      ≠ Writer.rotate "app.log-%Y%m%d%H" "app.log" 3600 (some 10)
          (some 104857600) := by
  decide

/-- C4 (amended): a `maxbackups` property whose trimmed value is not a
nonempty digit string builds the file sink with rotation count 0 (the
value `strconv.ParseUint` returns alongside its discarded syntax
error), replacing the default of 10; no error is raised. -/
theorem C4_malformed_maxbackups_zero (filename v : String)
    (hbad : ((goTrim v).data.isEmpty
      || !(goTrim v).data.all Char.isDigit) = true) :
    xmlToFileLogWriter filename [{ name := "maxbackups", value := v }] =
      Writer.rotate (filename ++ "-%Y%m%d%H") filename 3600 (some 0)
        (some (strToNumSuffix "100M" 1024)) := by
  have hcond : (!(goTrim v).data.isEmpty
      && (goTrim v).data.all Char.isDigit) = false := by
    revert hbad
    cases (goTrim v).data.isEmpty <;>
      cases (goTrim v).data.all Char.isDigit <;> simp
  have h0 : goParseUint32 (goTrim v) = 0 := by
    unfold goParseUint32
    rw [hcond]
    rfl
  unfold xmlToFileLogWriter
  rw [List.foldl_cons, List.foldl_nil]
  have hstep : applyProp (10, strToNumSuffix "100M" 1024)
      { name := "maxbackups", value := v }
      = (0, strToNumSuffix "100M" 1024) := by
    simp [applyProp, h0]
  rw [hstep]

/-- Witness for C4 (amended) at the value `"oops"`. -/
theorem C4_malformed_maxbackups_zero_witness :
    xmlToFileLogWriter "app.log" [{ name := "maxbackups", value := "oops" }]
      = Writer.rotate ("app.log" ++ "-%Y%m%d%H") "app.log" 3600 (some 0)
          (some (strToNumSuffix "100M" 1024)) :=
  C4_malformed_maxbackups_zero "app.log" "oops" (by decide)

/-- C5: after a successful initialization from the package-initial
state whose configuration declares no filter tagged `stderr` and none
tagged `stdout`, the registry holds the synthesized `stderr` channel at
Error threshold and the synthesized `stdout` channel at Info threshold,
each an hourly-rotating writer linked at `join(logDir, <name>.log)`
with no rotation count or size configured, and `GetLogger` returns
these rather than the standard logger. -/
theorem C5_synthesized_default_channels (logPath : String)
    (fs : List xmlFilter) (st' : LogxState)
    (hinit : initLogger packageInitState logPath (.parsed fs) = .ok st')
    (hfs : ∀ f ∈ fs, f.tag ≠ "stderr" ∧ f.tag ≠ "stdout") :
    getLogger st' "stderr" = stderrSynth logPath ∧
    getLogger st' "stdout" = stdoutSynth logPath ∧
    (stderrSynth logPath).level = Level.error ∧
    (stdoutSynth logPath).level = Level.info ∧
    (stderrSynth logPath).out = Writer.rotate
      (pathJoin logPath "stderr.log-%Y%m%d%H")
      (pathJoin logPath "stderr.log") 3600 none none ∧
    (stdoutSynth logPath).out = Writer.rotate
      (pathJoin logPath "stdout.log-%Y%m%d%H")
      (pathJoin logPath "stdout.log") 3600 none none ∧
    getLogger st' "stderr" ≠ st'.stdLogger ∧
    getLogger st' "stdout" ≠ st'.stdLogger := by
  obtain ⟨fs2, s1, hr, hf, hlog, hse, hso, hout, hlvl, hh⟩ :=
    initLogger_ok_spec hinit
  cases hr
  have h1 : mapLookup s1.loggers "stderr" = none := by
    refine initFilters_ok_lookup_none ?_ (fun g hg => (hfs g hg).1) hf
    rfl
  have h2 : mapLookup s1.loggers "stdout" = none := by
    refine initFilters_ok_lookup_none ?_ (fun g hg => (hfs g hg).2) hf
    rfl
  have he : (resolveStderr logPath s1).1 = stderrSynth logPath :=
    resolveStderr_of_none _ _ h1
  have h2b : mapLookup (resolveStderr logPath s1).2.loggers "stdout"
      = none := by
    rw [resolveStderr_lookup_ne _ _ _ (by decide)]
    exact h2
  have ho : (resolveStdout logPath (resolveStderr logPath s1).2).1
      = stdoutSynth logPath :=
    resolveStdout_of_none _ _ h2b
  have hgse := getLogger_of_lookup hse
  have hgso := getLogger_of_lookup hso
  rw [hgse, hgso, he, ho]
  refine ⟨rfl, rfl, rfl, rfl, rfl, rfl, ?_, ?_⟩
  · intro hbad
    have h3 := congrArg Logger.out hbad
    rw [hout] at h3
    exact absurd h3 (by simp [stderrSynth, packageInitState, logrusNew])
  · intro hbad
    have h3 := congrArg Logger.out hbad
    rw [hout] at h3
    exact absurd h3 (by simp [stdoutSynth, packageInitState, logrusNew])

/-- Witness for C5 with an empty configuration at `logDir = "/logs"`. -/
theorem C5_synthesized_default_channels_witness :
    getLogger stOnce "stderr" = stderrSynth "/logs" ∧
    getLogger stOnce "stdout" = stdoutSynth "/logs" :=
  ⟨(C5_synthesized_default_channels "/logs" [] stOnce (by decide)
      (by decide)).1,
   (C5_synthesized_default_channels "/logs" [] stOnce (by decide)
      (by decide)).2.1⟩

/-- C6: a file-type channel with neither `maxbackups` nor `maxsize`
properties is registered with a sink built at
`join(logDir, tag + ".log")` with the default rotation count 10 and the
default rotation size `strToNumSuffix("100M", 1024) = 104857600` bytes
(100 MiB). -/
theorem C6_file_channel_defaults (logPath : String) (f : xmlFilter)
    (lvl : Level) (st' : LogxState)
    (hty : f.type = "file") (hlvl : parseLevel f.level = some lvl)
    (hprops : ∀ p ∈ f.property, p.name ≠ "maxbackups" ∧ p.name ≠ "maxsize")
    (hinit : initLogger packageInitState logPath (.parsed [f]) = .ok st') :
    (getLogger st' f.tag).out =
      Writer.rotate (pathJoin logPath (f.tag ++ ".log") ++ "-%Y%m%d%H")
        (pathJoin logPath (f.tag ++ ".log")) 3600 (some 10)
        (some (strToNumSuffix "100M" 1024)) ∧
    (getLogger st' f.tag).level = lvl ∧
    strToNumSuffix "100M" 1024 = 104857600 := by
  obtain ⟨fs2, s1, hr, hf, hlog, hse, hso, hout, hlvl2, hh⟩ :=
    initLogger_ok_spec hinit
  cases hr
  have hbf := @buildFilter_file logPath f lvl hlvl hty
  have hf2 : initFilters logPath packageInitState [f] = .ok
      { packageInitState with
        loggers := (mapInsert packageInitState.loggers f.tag
          ⟨xmlToFileLogWriter (pathJoin logPath (f.tag ++ ".log"))
            f.property, lvl, .txtFormatter, []⟩) } := by
    simp only [initFilters, hbf]
  rw [hf2] at hf
  cases hf
  have hl1 : mapLookup ({ packageInitState with
      loggers := (mapInsert packageInitState.loggers f.tag
        ⟨xmlToFileLogWriter (pathJoin logPath (f.tag ++ ".log"))
          f.property, lvl, .txtFormatter, []⟩) } : LogxState).loggers f.tag
      = some ⟨xmlToFileLogWriter (pathJoin logPath (f.tag ++ ".log"))
          f.property, lvl, .txtFormatter, []⟩ :=
    mapLookup_insert_self _ _ _
  have hl3 := @resolveStdout_lookup_some logPath _ _ _
    (@resolveStderr_lookup_some logPath _ _ _ hl1)
  rw [← hlog] at hl3
  rw [getLogger_of_lookup hl3]
  exact ⟨xmlToFileLogWriter_defaults _ hprops, rfl, by decide⟩

/-- Witness for C6 at a concrete file filter tagged `app`. -/
theorem C6_file_channel_defaults_witness :
    (getLogger stC6 fC6.tag).out =
      Writer.rotate (pathJoin "/logs" (fC6.tag ++ ".log") ++ "-%Y%m%d%H")
        (pathJoin "/logs" (fC6.tag ++ ".log")) 3600 (some 10)
        (some (strToNumSuffix "100M" 1024)) :=
  (C6_file_channel_defaults "/logs" fC6 Level.info stC6 rfl (by decide)
    (by decide) (by decide)).1

/-- C7: a configuration containing a filter whose level string does not
parse aborts initialization with a panic; no success is possible. -/
theorem C7_invalid_level_aborts (st : LogxState) (logPath : String)
    (fs : List xmlFilter) (h : ∃ f ∈ fs, parseLevel f.level = none) :
    ∃ s, initLogger st logPath (.parsed fs) = .panicked s ∧
      ∀ st'', initLogger st logPath (.parsed fs) ≠ .ok st'' := by
  rcases @initFilters_panic_of_bad logPath fs st h with ⟨s, hs⟩
  have key : initLogger st logPath (.parsed fs) = .panicked s := by
    simp only [initLogger, initLoggerCore, hs]
  refine ⟨s, key, fun st'' hcon => ?_⟩
  rw [key] at hcon
  cases hcon

/-- Witness for C7 at a filter whose level is `"verbose"`. -/
theorem C7_invalid_level_aborts_witness :
    ∃ s, initLogger packageInitState "/logs" (.parsed [fBadLevel])
        = .panicked s ∧
      ∀ st'', initLogger packageInitState "/logs" (.parsed [fBadLevel])
        ≠ .ok st'' :=
  C7_invalid_level_aborts packageInitState "/logs" [fBadLevel]
    ⟨fBadLevel, by decide, by decide⟩

/-- C8: an unreadable configuration path (failed open or failed read)
returns the I/O error and leaves the registry exactly as it was: no
channel from that configuration is registered. -/
theorem C8_unreadable_config (st : LogxState) (logPath : String) :
    initLogger st logPath .openFail = .ioErr st ∧
    initLogger st logPath .readFail = .ioErr st ∧
    (initLogger st logPath .openFail).state = st ∧
    (∀ n, mapLookup (initLogger st logPath .openFail).state.loggers n
      = mapLookup st.loggers n) :=
  ⟨rfl, rfl, rfl, fun _ => rfl⟩

/-- C9: initialization is not idempotent on the global hook list: a
second successful initialization appends a second pair of routing hooks
after the pair appended by the first, so the routing hooks are
doubled rather than replaced. -/
theorem C9_reinit_appends_hooks (st st1 st2 : LogxState) (p1 p2 : String)
    (r1 r2 : ReadOutcome)
    (h1 : initLogger st p1 r1 = .ok st1)
    (h2 : initLogger st1 p2 r2 = .ok st2) :
    ∃ e1 o1 e2 o2,
      st1.stdLogger.hooks = st.stdLogger.hooks
        ++ [errHook e1, outHook o1] ∧
      st2.stdLogger.hooks = st.stdLogger.hooks
        ++ [errHook e1, outHook o1, errHook e2, outHook o2] := by
  obtain ⟨fsa, s1a, _, _, _, _, _, _, _, hha⟩ := initLogger_ok_spec h1
  obtain ⟨fsb, s1b, _, _, _, _, _, _, _, hhb⟩ := initLogger_ok_spec h2
  refine ⟨(resolveStderr p1 s1a).1.out,
    (resolveStdout p1 (resolveStderr p1 s1a).2).1.out,
    (resolveStderr p2 s1b).1.out,
    (resolveStdout p2 (resolveStderr p2 s1b).2).1.out, hha, ?_⟩
  rw [hhb, hha, List.append_assoc]
  rfl

/-- Witness for C9: two successive initializations with an empty
configuration from the package-initial state. -/
theorem C9_reinit_appends_hooks_witness :
    ∃ e1 o1 e2 o2,
      stOnce.stdLogger.hooks = packageInitState.stdLogger.hooks
        ++ [errHook e1, outHook o1] ∧
      stTwice.stdLogger.hooks = packageInitState.stdLogger.hooks
        ++ [errHook e1, outHook o1, errHook e2, outHook o2] :=
  C9_reinit_appends_hooks packageInitState stOnce stTwice "/logs" "/logs"
    (.parsed []) (.parsed []) (by decide) (by decide)

/-- C10: a filter whose type is neither `console` nor `file` raises no
error: initialization succeeds and registers under the filter tag a
handle at the parsed level whose output is the `logrus.New()` default,
the standard error stream, with no sink bound. -/
theorem C10_unknown_type_registered (st : LogxState) (logPath : String)
    (f : xmlFilter) (lvl : Level)
    (hlvl : parseLevel f.level = some lvl)
    (h1 : f.type ≠ "console") (h2 : f.type ≠ "file") :
    ∃ st', initLogger st logPath (.parsed [f]) = .ok st' ∧
      mapLookup st'.loggers f.tag
        = some ⟨Writer.osStderr, lvl, Formatter.txtFormatter, []⟩ := by
  have hbf := @buildFilter_other logPath f lvl hlvl h1 h2
  have hf : initFilters logPath st [f] = .ok
      { st with loggers := (mapInsert st.loggers f.tag
          ⟨Writer.osStderr, lvl, Formatter.txtFormatter, []⟩) } := by
    simp only [initFilters, hbf]
  have hl1 : mapLookup ({ st with
      loggers := (mapInsert st.loggers f.tag
        ⟨Writer.osStderr, lvl, Formatter.txtFormatter, []⟩) } :
        LogxState).loggers f.tag
      = some ⟨Writer.osStderr, lvl, Formatter.txtFormatter, []⟩ :=
    mapLookup_insert_self _ _ _
  refine ⟨_, by simp only [initLogger, initLoggerCore, hf]; rfl, ?_⟩
  exact @resolveStdout_lookup_some logPath _ _ _
    (@resolveStderr_lookup_some logPath _ _ _ hl1)

/-- Witness for C10 at a filter of type `syslog`. -/
theorem C10_unknown_type_registered_witness :
    ∃ st', initLogger packageInitState "/logs" (.parsed [fC10])
        = .ok st' ∧
      mapLookup st'.loggers fC10.tag
        = some ⟨Writer.osStderr, Level.debug, Formatter.txtFormatter, []⟩ :=
  C10_unknown_type_registered packageInitState "/logs" fC10 Level.debug
    (by decide) (by decide) (by decide)

end Logx
